import Mathlib

/-!
Verification development for the quick-order-hub order domain: the Cart
Manager (src/hooks/usePWA.ts, src/hooks/useOrders.ts) and the Order
Lifecycle Engine (the same hooks acting on the relational store, gated by
the row-level-security policies of the SQL migrations).

Modelling conventions:
* Decimal amounts (`NUMERIC(10,2)` columns, JS numbers holding prices) are
  rationals.
* Timestamps are naturals (`created_at`/`updated_at` order comparisons are
  all the code uses).
* The backing store is a record of row lists; a supabase `insert` appends,
  `update ... eq` maps over rows, `delete ... eq` filters rows.
* Asynchronous failures of a single store call (network or policy
  rejection) are injected through explicit boolean parameters, mirroring
  the `if (error) throw` checks in the source.
* Row-level security is modelled as Postgres defines it for permissive
  policies: an `UPDATE` or `DELETE` touches a row iff it matches the
  query filter and at least one policy `USING` clause accepts it — rows
  failing every `USING` are silently skipped with no error — and an
  `UPDATE` additionally checks each written row's new version against
  the policies' `WITH CHECK` clauses (each defaulting to that policy's
  `USING` expression); when every applicable clause rejects the new row,
  Postgres aborts the whole statement with an error, which the client
  surfaces as its generic failure toast.
-/

namespace QuickOrderHub

/-- A cart line as held by the customer PWA (interface `CartItem` in
usePWA.ts): menu-item reference plus a denormalized name/price snapshot. -/
structure CartItem where
  menuItemId : String
  name : String
  price : ℚ
  quantity : ℤ
  notes : String
deriving DecidableEq, Repr

/-- The customer cart: an ordered list of lines. -/
abbrev Cart := List CartItem

/-- A menu item as loaded by the clients (interface `MenuItem`). -/
structure MenuItem where
  id : String
  name : String
  description : Option String
  price : ℚ
  image_url : Option String
  category_id : Option String
deriving DecidableEq, Repr

/-- An `orders` row (supabase/migrations, table `public.orders`). -/
structure OrderRow where
  id : String
  restaurant_id : String
  table_id : String
  status : String
  total_amount : ℚ
  created_at : ℕ
  updated_at : ℕ
deriving DecidableEq, Repr

/-- An `order_items` row (table `public.order_items`); the DB-generated
primary key is omitted, no operation reads it. -/
structure OrderItemRow where
  order_id : String
  menu_item_id : Option String
  name_at_order : String
  price_at_order : ℚ
  quantity : ℤ
  notes : Option String
deriving DecidableEq, Repr

/-- A `menu_items` row (table `public.menu_items`). -/
structure MenuItemRow where
  id : String
  restaurant_id : String
  category_id : Option String
  name : String
  description : Option String
  price : ℚ
  image_url : Option String
  is_available : Bool
  position : ℤ
deriving DecidableEq, Repr

/-- A `tables` row (table `public.tables`). -/
structure TableRow where
  id : String
  restaurant_id : String
  name : String
  table_uuid : String
deriving DecidableEq, Repr

/-- A `restaurant_users` row linking an admin account to a tenant. -/
structure RestaurantUserRow where
  user_id : String
  restaurant_id : String
deriving DecidableEq, Repr

/-- The backing relational store, restricted to the tables the order
domain touches. `platform_users` keeps only the user ids. -/
structure Store where
  orders : List OrderRow
  order_items : List OrderItemRow
  menu_items : List MenuItemRow
  tables : List TableRow
  restaurant_users : List RestaurantUserRow
  platform_users : List String
deriving DecidableEq, Repr

/-! ### Cart Manager operations (usePWA.ts lines 294-349) -/

/-- `addToCart` (usePWA.ts 294-315): increment the matching line, else
append a fresh line with quantity 1 snapshotting current name/price. -/
def addToCart (item : MenuItem) (prev : Cart) : Cart :=
  if prev.any (fun c => c.menuItemId = item.id) then
    prev.map fun c =>
      if c.menuItemId = item.id then { c with quantity := c.quantity + 1 } else c
  else
    prev ++ [{ menuItemId := item.id, name := item.name, price := item.price,
               quantity := 1, notes := "" }]

/-- `updateQuantity` (usePWA.ts 317-329): add `delta` to the matching
line; drop the line when the new quantity is not positive (`newQty > 0 ?
... : null` followed by `filter(Boolean)`). -/
def updateQuantity (menuItemId : String) (delta : ℤ) (prev : Cart) : Cart :=
  prev.filterMap fun c =>
    if c.menuItemId = menuItemId then
      if 0 < c.quantity + delta then some { c with quantity := c.quantity + delta }
      else none
    else some c

/-- `updateNotes` (usePWA.ts 331-337). -/
def updateNotes (menuItemId : String) (notes : String) (prev : Cart) : Cart :=
  prev.map fun c => if c.menuItemId = menuItemId then { c with notes := notes } else c

/-- `removeFromCart` (usePWA.ts 339-341). -/
def removeFromCart (menuItemId : String) (prev : Cart) : Cart :=
  prev.filter fun c => c.menuItemId ≠ menuItemId

/-- `getCartTotal` (usePWA.ts 343-345): reduce over `price * quantity`. -/
def getCartTotal (cart : Cart) : ℚ :=
  cart.foldl (fun sum item => sum + item.price * (item.quantity : ℚ)) 0

/-- `getCartCount` (usePWA.ts 347-349): reduce over `quantity`. -/
def getCartCount (cart : Cart) : ℤ :=
  cart.foldl (fun sum item => sum + item.quantity) 0

/-- Cart seeding inside `loadActiveOrder` (usePWA.ts 146-156): the cart is
rebuilt from the pending order line items only when the local cart is
empty and the order has items; otherwise local state wins. -/
def reconcileWithOrder (cart : Cart) (items : List OrderItemRow) : Cart :=
  if cart.length = 0 ∧ 0 < items.length then
    items.map fun item =>
      { menuItemId := item.menu_item_id.getD ("")
        name := item.name_at_order
        price := item.price_at_order
        quantity := item.quantity
        notes := item.notes.getD ("") }
  else cart

/-- One step of a customer cart session. -/
inductive CartOp where
  | add (item : MenuItem)
  | changeQuantity (menuItemId : String) (delta : ℤ)
  | setNotes (menuItemId : String) (notes : String)
  | remove (menuItemId : String)
deriving DecidableEq, Repr

/-- Apply one cart operation. -/
def applyCartOp (cart : Cart) (op : CartOp) : Cart :=
  match op with
  | .add item => addToCart item cart
  | .changeQuantity menuItemId delta => updateQuantity menuItemId delta cart
  | .setNotes menuItemId notes => updateNotes menuItemId notes cart
  | .remove menuItemId => removeFromCart menuItemId cart

/-- Run a whole session from the empty cart. -/
def runCartOps (ops : List CartOp) : Cart :=
  ops.foldl applyCartOp []

/-- The menu-item ids of the cart lines, in order. -/
def cartIds (cart : Cart) : List String :=
  cart.map fun c => c.menuItemId

/-- The cart invariant of the data model: at most one line per menu item
id and every quantity at least 1. -/
def CartWF (cart : Cart) : Prop :=
  (cartIds cart).Nodup ∧ ∀ c ∈ cart, 1 ≤ c.quantity

/-! ### Order Lifecycle Engine -/

/-- Outcome of an engine operation, following the error taxonomy of the
spec; the source surfaces each as a toast message. -/
inductive PlaceResult where
  | success
  | validationError (msg : String)
  | invalidStateError
  | authorizationError
  | transportError (msg : String)
deriving DecidableEq, Repr

/-- usePWA.ts 353: guard message when ordering context is missing or the
cart is empty. -/
def msgCannotPlace : String := "Cannot place order. Please scan the QR code on your table."

/-- usePWA.ts 360: guard message when a cart line has no menu-item id. -/
def msgInvalidItems : String := "Some items in your cart are invalid. Please remove them and try again."

/-- useOrders.ts 213: admin guard message for an empty cart. -/
def msgAddItems : String := "Please add items to the order"

/-- useOrders.ts 218: admin guard message when no table is selected. -/
def msgSelectTable : String := "Please select a table"

/-- usePWA.ts 377. -/
def msgUpdateOrderFailed : String := "Failed to update order"

/-- usePWA.ts 388. -/
def msgUpdateItemsFailed : String := "Failed to update order items"

/-- usePWA.ts 407 and 447. -/
def msgAddItemsFailed : String := "Failed to add order items"

/-- usePWA.ts 427 and useOrders.ts catch-all toast. -/
def msgCreateOrderFailed : String := "Failed to create order"

/-- `is_super_admin` (migration 20251204..., SECURITY DEFINER function):
membership in `platform_users`. -/
def is_super_admin (s : Store) (userId : String) : Bool :=
  s.platform_users.any fun u => u = userId

/-- `has_restaurant_access` (same migration): a `restaurant_users` link or
super-admin status. -/
def has_restaurant_access (s : Store) (userId restaurantId : String) : Bool :=
  (s.restaurant_users.any fun ru => ru.user_id = userId ∧ ru.restaurant_id = restaurantId)
    || is_super_admin s userId

/-- The table-resolution step of `loadData` (usePWA.ts 194-226): look the
table up by `id`, fall back to `table_uuid`, and accept it only when it
belongs to the restaurant of the URL. -/
def resolveTable (tables : List TableRow) (restaurantId tableId : String) : Option TableRow :=
  let tbl :=
    match tables.find? (fun t => t.id = tableId) with
    | some t => some t
    | none => tables.find? fun t => t.table_uuid = tableId
  match tbl with
  | some t => if t.restaurant_id = restaurantId then some t else none
  | none => none

/-- `canOrder` (usePWA.ts 77): both URL parameters present and the table
resolved. -/
def pwaCanOrder (restaurantId tableId : String) (table : Option TableRow) : Bool :=
  decide (restaurantId ≠ "") && decide (tableId ≠ "") && table.isSome

/-- The `order_items` insert payload for one PWA cart line (usePWA.ts
430-437): snapshot of name and price at submission time. -/
def snapshotItem (orderId : String) (item : CartItem) : OrderItemRow :=
  { order_id := orderId
    menu_item_id := some item.menuItemId
    name_at_order := item.name
    price_at_order := item.price
    quantity := item.quantity
    notes := if item.notes = "" then none else some item.notes }

/-- The `orders` insert payload of the PWA create path (usePWA.ts
414-423) together with the DB defaults: fresh id, `pending` status,
`created_at`/`updated_at` stamped now. -/
def pwaOrderRow (cart : Cart) (restaurantId tableId newOrderId : String) (now : ℕ) : OrderRow :=
  { id := newOrderId
    restaurant_id := restaurantId
    table_id := tableId
    status := "pending"
    total_amount := getCartTotal cart
    created_at := now
    updated_at := now }

/-- `has_restaurant_access` as evaluated for the unauthenticated PWA
caller: `auth.uid()` is null and both `restaurant_users.user_id` and
`platform_users.user_id` are non-null references into `auth.users`, so
the predicate is false for every restaurant. -/
def anon_has_restaurant_access (restaurantId : String) : Bool :=
  false

/-- The order-row write of the PWA update path (usePWA.ts 370-373),
issued by the unauthenticated customer, as the row-level-security
policies admit it: only rows whose stored status is `pending` pass
`customer_update_pending_orders`, the rest are silently skipped (the
admin policies need `has_restaurant_access`, false for the anonymous
caller). The write leaves `status` unchanged, so the new row passes the
same policy's `WITH CHECK` whenever the old row passed its `USING`, and
no statement error can arise from this update. -/
def customerUpdateOrderTotal (orderId : String) (total : ℚ) (now : ℕ) (s : Store) : Store :=
  { s with orders := s.orders.map fun o =>
      if o.id = orderId ∧ o.status = "pending"
      then { o with total_amount := total, updated_at := now }
      else o }

/-- The create-order branch of `handlePlaceOrder` (usePWA.ts 412-456):
insert the order, insert one item per cart line. When the item insert
fails the client issues a compensating delete of the created order
(usePWA.ts 446, result unchecked); in the final migration state the only
policy covering DELETE on `orders` is `admin_all_orders`, whose `USING`
clause `has_restaurant_access(auth.uid(), restaurant_id)` is false for
the unauthenticated PWA caller, so the delete is silently filtered: it
removes no rows and the freshly created zero-item order stays. -/
def createOrderPWA (cart : Cart) (restaurantId tableId newOrderId : String) (now : ℕ)
    (orderInsertFails itemsInsertFails : Bool) (s : Store) : PlaceResult × Store × Cart :=
  if orderInsertFails then (.transportError msgCreateOrderFailed, s, cart)
  else
    let s1 := { s with orders := s.orders ++ [pwaOrderRow cart restaurantId tableId newOrderId now] }
    if itemsInsertFails then
      (.transportError msgAddItemsFailed,
       { s1 with orders := s1.orders.filter fun o =>
           ¬(o.id = newOrderId ∧ anon_has_restaurant_access o.restaurant_id = true) },
       cart)
    else
      (.success,
       { s1 with order_items := s1.order_items ++ cart.map (snapshotItem newOrderId) },
       cart)

/-- `handlePlaceOrder` (usePWA.ts 351-465). Every store write of the
update branch is issued by the unauthenticated customer and therefore
goes through the customer policies: the order-row write through
`customer_update_pending_orders` (see `customerUpdateOrderTotal`), the
line-item delete through `customer_delete_pending_order_items` (item
removed only while its parent order is still `pending`), and the
line-item insert through `validated_insert_order_items`, whose rejection
raises an error folded into the failure flag. The third component of the
result is the cart state after the call: the function never writes the
cart, and the `loadActiveOrder` refresh on the update path reconciles a
non-empty cart, which leaves it as is. -/
def handlePlaceOrder (canOrder : Bool) (cart : Cart) (activeOrder : Option OrderRow)
    (restaurantId tableId newOrderId : String) (now : ℕ)
    (orderWriteFails itemsDeleteFails itemsInsertFails : Bool) (s : Store) :
    PlaceResult × Store × Cart :=
  if canOrder = false ∨ cart = [] then (.validationError msgCannotPlace, s, cart)
  else if 0 < (cart.filter fun item => item.menuItemId = "").length then
    (.validationError msgInvalidItems, s, cart)
  else
    match activeOrder with
    | some active =>
      if active.status = "pending" then
        if orderWriteFails then (.transportError msgUpdateOrderFailed, s, cart)
        else
          let s1 := customerUpdateOrderTotal active.id (getCartTotal cart) now s
          if itemsDeleteFails then (.transportError msgUpdateItemsFailed, s1, cart)
          else
            let s2 := { s1 with order_items := s1.order_items.filter fun it =>
              ¬(it.order_id = active.id ∧
                 s1.orders.any fun o => o.id = it.order_id ∧ o.status = "pending") }
            if itemsInsertFails then (.transportError msgAddItemsFailed, s2, cart)
            else
              let newItems := cart.map (snapshotItem active.id)
              (.success,
               { s2 with order_items := s2.order_items ++ newItems },
               reconcileWithOrder cart newItems)
      else
        createOrderPWA cart restaurantId tableId newOrderId now orderWriteFails itemsInsertFails s
    | none =>
      createOrderPWA cart restaurantId tableId newOrderId now orderWriteFails itemsInsertFails s

/-- An admin cart line (interface `CartItem` in useOrders.ts): the full
menu item plus quantity and notes. -/
structure AdminCartItem where
  menuItem : MenuItem
  quantity : ℤ
  notes : String
deriving DecidableEq, Repr

/-- `getCartTotal` (useOrders.ts 207-209). -/
def getAdminCartTotal (cart : List AdminCartItem) : ℚ :=
  cart.foldl (fun sum item => sum + item.menuItem.price * (item.quantity : ℚ)) 0

/-- The `order_items` insert payload of the admin create path
(useOrders.ts 239-246). -/
def adminSnapshotItem (orderId : String) (item : AdminCartItem) : OrderItemRow :=
  { order_id := orderId
    menu_item_id := some item.menuItem.id
    name_at_order := item.menuItem.name
    price_at_order := item.menuItem.price
    quantity := item.quantity
    notes := if item.notes = "" then none else some item.notes }

/-- The `orders` insert payload of the admin create path (useOrders.ts
226-233) with DB defaults. -/
def adminOrderRow (cart : List AdminCartItem) (restaurantId tableId newOrderId : String)
    (now : ℕ) : OrderRow :=
  { id := newOrderId
    restaurant_id := restaurantId
    table_id := tableId
    status := "pending"
    total_amount := getAdminCartTotal cart
    created_at := now
    updated_at := now }

/-- `handleCreateOrder` (useOrders.ts 211-266): the admin order-creation
path. When the item insert fails the catch block only shows a toast — the
created order row is left in place, there is no compensating delete. -/
def handleCreateOrder (cart : List AdminCartItem) (selectedTableId restaurantId newOrderId : String)
    (now : ℕ) (orderInsertFails itemsInsertFails : Bool) (s : Store) : PlaceResult × Store :=
  if cart = [] then (.validationError msgAddItems, s)
  else if selectedTableId = "" then (.validationError msgSelectTable, s)
  else if orderInsertFails then (.transportError msgCreateOrderFailed, s)
  else
    let s1 := { s with orders := s.orders ++ [adminOrderRow cart restaurantId selectedTableId newOrderId now] }
    if itemsInsertFails then (.transportError msgCreateOrderFailed, s1)
    else
      (.success, { s1 with order_items := s1.order_items ++ cart.map (adminSnapshotItem newOrderId) })

/-- `updateOrderStatus` (useOrders.ts 155-169) as admitted by the final
row-level-security policy set on `orders` for UPDATE, which is the OR of
`admin_all_orders`/`admin_update_orders` (`has_restaurant_access`) and
`customer_update_pending_orders` (`status = 'pending'`, added in the
pending-order migration and never dropped). A row is written iff it
matches the id filter and passes some policy `USING` clause; rows
failing every `USING` are silently skipped. Every written row's new
version must additionally pass some policy `WITH CHECK` clause — each
defaults to the policy's `USING` expression, giving
`has_restaurant_access` for the admin policies and `status = 'pending'`
for the customer policy, evaluated on the new row — and when some
written row fails every clause, Postgres aborts the statement with an
error, which the client catch block surfaces as the generic failure
toast, leaving the store unchanged. Otherwise the write goes through,
the `update_orders_updated_at` trigger stamps `updated_at` on every row
written, and the client reports success. -/
def updateOrderStatus (caller orderId newStatus : String) (now : ℕ)
    (transportFails : Bool) (s : Store) : PlaceResult × Store :=
  if transportFails then (.transportError msgUpdateOrderFailed, s)
  else if s.orders.any fun o =>
      (o.id = orderId ∧
        (has_restaurant_access s caller o.restaurant_id = true ∨ o.status = "pending")) ∧
      ¬(has_restaurant_access s caller o.restaurant_id = true ∨ newStatus = "pending") then
    (.transportError msgUpdateOrderFailed, s)
  else
    (.success,
     { s with orders := s.orders.map fun o =>
         if o.id = orderId ∧
            (has_restaurant_access s caller o.restaurant_id = true ∨ o.status = "pending")
         then { o with status := newStatus, updated_at := now }
         else o })

/-- The six order statuses (`STATUS_OPTIONS`, useOrders.ts 40). -/
def STATUS_OPTIONS : List String :=
  ["pending", "accepted", "preparing", "ready", "served", "cancelled"]

/-- The rows matched by the `findActiveOrder` query (usePWA.ts 117-125):
orders of the (restaurant, table) pair in status `pending`. -/
def activePendingOrders (orders : List OrderRow) (restaurantId tableId : String) : List OrderRow :=
  orders.filter fun o =>
    o.restaurant_id = restaurantId ∧ o.table_id = tableId ∧ o.status = "pending"

/-- Accumulator step realizing `order by created_at descending, limit 1`:
keep the later-created row, the earlier-seen one on ties. -/
def laterOf (acc : Option OrderRow) (o : OrderRow) : Option OrderRow :=
  match acc with
  | none => some o
  | some b => if b.created_at < o.created_at then some o else some b

/-- Head of the candidate rows sorted by creation time, newest first. -/
def latestBy (l : List OrderRow) : Option OrderRow :=
  l.foldl laterOf none

/-- `findActiveOrder` (the active-order query of usePWA.ts 113-130): the
most recently created pending order of the table, if any. -/
def findActiveOrder (orders : List OrderRow) (restaurantId tableId : String) : Option OrderRow :=
  latestBy (activePendingOrders orders restaurantId tableId)

/-- A menu edit of the admin dashboard (pages/dashboard/Menu.tsx): any
rewrite of the `menu_items` rows; no other table is touched. -/
def editMenuItems (f : List MenuItemRow → List MenuItemRow) (s : Store) : Store :=
  { s with menu_items := f s.menu_items }

/-! ### Cart Manager lemmas -/

theorem filterMap_cartIds_sublist (f : CartItem → Option CartItem)
    (hf : ∀ a b, f a = some b → b.menuItemId = a.menuItemId) :
    ∀ l : Cart, (cartIds (l.filterMap f)).Sublist (cartIds l) := by
  intro l
  induction l with
  | nil => simp [cartIds]
  | cons a t ih =>
    cases h : f a with
    | none =>
      rw [List.filterMap_cons_none h]
      exact ih.cons _
    | some b =>
      rw [List.filterMap_cons_some h]
      simpa [cartIds, hf a b h] using ih.cons₂ a.menuItemId

theorem filterMap_skips (f : CartItem → Option CartItem) :
    ∀ l : Cart, (∀ a ∈ l, f a = some a) → l.filterMap f = l := by
  intro l
  induction l with
  | nil => intro _; rfl
  | cons a t ih =>
    intro h
    rw [List.filterMap_cons_some (h a (by simp)), ih fun x hx => h x (by simp [hx])]

theorem addToCart_wf (item : MenuItem) (cart : Cart) (h : CartWF cart) :
    CartWF (addToCart item cart) := by
  obtain ⟨hnd, hq⟩ := h
  unfold addToCart
  split
  case isTrue hex =>
    constructor
    · have hids : cartIds (cart.map fun c =>
          if c.menuItemId = item.id then { c with quantity := c.quantity + 1 } else c) =
          cartIds cart := by
        unfold cartIds
        rw [List.map_map]
        apply List.map_congr_left
        intro a _
        by_cases hid : a.menuItemId = item.id <;> simp [hid]
      rwa [hids]
    · intro c hc
      obtain ⟨a, ha, rfl⟩ := List.mem_map.mp hc
      by_cases hid : a.menuItemId = item.id
      · have := hq a ha
        simp only [hid, if_true, if_pos]
        omega
      · simpa [hid] using hq a ha
  case isFalse hex =>
    constructor
    · have hnotin : ∀ x ∈ cart, ¬x.menuItemId = item.id := by
        intro x hx hxid
        exact hex (List.any_eq_true.mpr ⟨x, hx, by simp [hxid]⟩)
      simpa [cartIds, List.nodup_append] using ⟨hnd, hnotin⟩
    · intro c hc
      rcases List.mem_append.mp hc with hold | hnew
      · exact hq c hold
      · simp only [List.mem_singleton] at hnew
        subst hnew
        norm_num

theorem updateQuantity_wf (menuItemId : String) (delta : ℤ) (cart : Cart)
    (h : CartWF cart) : CartWF (updateQuantity menuItemId delta cart) := by
  obtain ⟨hnd, hq⟩ := h
  constructor
  · refine (filterMap_cartIds_sublist _ ?_ cart).nodup hnd
    intro a b hab
    by_cases h1 : a.menuItemId = menuItemId
    · rw [if_pos h1] at hab
      by_cases h2 : 0 < a.quantity + delta
      · rw [if_pos h2] at hab
        injection hab with h3
        subst h3
        rfl
      · rw [if_neg h2] at hab
        exact Option.noConfusion hab
    · rw [if_neg h1] at hab
      injection hab with h3
      subst h3
      rfl
  · intro c hc
    obtain ⟨a, ha, hfa⟩ := List.mem_filterMap.mp hc
    by_cases h1 : a.menuItemId = menuItemId
    · rw [if_pos h1] at hfa
      by_cases h2 : 0 < a.quantity + delta
      · rw [if_pos h2] at hfa
        injection hfa with h3
        subst h3
        show 1 ≤ a.quantity + delta
        omega
      · rw [if_neg h2] at hfa
        exact Option.noConfusion hfa
    · rw [if_neg h1] at hfa
      injection hfa with h3
      subst h3
      exact hq a ha

theorem updateNotes_wf (menuItemId notes : String) (cart : Cart)
    (h : CartWF cart) : CartWF (updateNotes menuItemId notes cart) := by
  obtain ⟨hnd, hq⟩ := h
  constructor
  · have hids : cartIds (updateNotes menuItemId notes cart) = cartIds cart := by
      unfold updateNotes cartIds
      rw [List.map_map]
      apply List.map_congr_left
      intro a _
      by_cases hid : a.menuItemId = menuItemId <;> simp [hid]
    rwa [hids]
  · intro c hc
    obtain ⟨a, ha, rfl⟩ := List.mem_map.mp hc
    by_cases hid : a.menuItemId = menuItemId <;> simpa [hid] using hq a ha

theorem removeFromCart_wf (menuItemId : String) (cart : Cart)
    (h : CartWF cart) : CartWF (removeFromCart menuItemId cart) := by
  obtain ⟨hnd, hq⟩ := h
  constructor
  · have hsub : (cartIds (removeFromCart menuItemId cart)).Sublist (cartIds cart) := by
      unfold cartIds removeFromCart
      exact (List.filter_sublist cart).map _
    exact hsub.nodup hnd
  · intro c hc
    exact hq c (List.mem_of_mem_filter hc)

theorem applyCartOp_wf (cart : Cart) (op : CartOp) (h : CartWF cart) :
    CartWF (applyCartOp cart op) := by
  cases op with
  | add item => exact addToCart_wf item cart h
  | changeQuantity menuItemId delta => exact updateQuantity_wf menuItemId delta cart h
  | setNotes menuItemId notes => exact updateNotes_wf menuItemId notes cart h
  | remove menuItemId => exact removeFromCart_wf menuItemId cart h

theorem foldl_cartOps_wf (ops : List CartOp) :
    ∀ cart : Cart, CartWF cart → CartWF (ops.foldl applyCartOp cart) := by
  induction ops with
  | nil => exact fun _ h => h
  | cons op t ih => exact fun cart h => ih _ (applyCartOp_wf cart op h)

theorem foldl_add_quantity (cart : Cart) :
    ∀ n : ℤ, cart.foldl (fun sum item => sum + item.quantity) n =
      n + ((cart.map fun c => c.quantity).sum) := by
  induction cart with
  | nil => simp
  | cons a t ih =>
    intro n
    simp only [List.foldl_cons, List.map_cons, List.sum_cons, ih]
    ring

theorem getCartCount_eq_sum (cart : Cart) :
    getCartCount cart = ((cart.map fun c => c.quantity).sum) := by
  simpa [getCartCount] using foldl_add_quantity cart 0

theorem foldl_add_total (cart : Cart) :
    ∀ q : ℚ, cart.foldl (fun sum item => sum + item.price * (item.quantity : ℚ)) q =
      q + ((cart.map fun c => c.price * (c.quantity : ℚ)).sum) := by
  induction cart with
  | nil => simp
  | cons a t ih =>
    intro q
    simp only [List.foldl_cons, List.map_cons, List.sum_cons, ih]
    ring

theorem getCartTotal_eq_sum (cart : Cart) :
    getCartTotal cart = ((cart.map fun c => c.price * (c.quantity : ℚ)).sum) := by
  simpa [getCartTotal] using foldl_add_total cart 0

/-! ### Claim theorems: Cart Manager -/

/-- Claim C2: for every sequence of addToCart, updateQuantity, updateNotes
and removeFromCart operations starting from the empty cart, the resulting
cart never contains two lines with the same menu-item id, every line has
quantity at least 1, and getCartCount equals the sum of the quantities of
all lines. -/
theorem cart_sequence_invariant (ops : List CartOp) :
    (cartIds (runCartOps ops)).Nodup ∧
    (∀ c ∈ runCartOps ops, 1 ≤ c.quantity) ∧
    getCartCount (runCartOps ops) = ((runCartOps ops).map fun c => c.quantity).sum := by
  have h : CartWF (runCartOps ops) :=
    foldl_cartOps_wf ops [] ⟨by simp [cartIds], by simp⟩
  exact ⟨h.1, h.2, getCartCount_eq_sum _⟩

/-- Evaluation of the C2 invariant on a concrete operation sequence. -/
theorem cart_sequence_invariant_witness :
    (cartIds (runCartOps [.add ⟨"m1", "Tea", none, 5, none, none⟩])).Nodup ∧
    (∀ c ∈ runCartOps [.add ⟨"m1", "Tea", none, 5, none, none⟩], 1 ≤ c.quantity) ∧
    getCartCount (runCartOps [.add ⟨"m1", "Tea", none, 5, none, none⟩]) =
      ((runCartOps [.add ⟨"m1", "Tea", none, 5, none, none⟩]).map fun c => c.quantity).sum :=
  cart_sequence_invariant [.add ⟨"m1", "Tea", none, 5, none, none⟩]

/-- Claim C6: reconcileWithOrder seeds the local cart from order line
items only when the local cart is empty; on a non-empty cart it leaves the
cart exactly unchanged and is idempotent. -/
theorem reconcile_local_wins (cart : Cart) (items : List OrderItemRow) (h : cart ≠ []) :
    reconcileWithOrder cart items = cart ∧
    reconcileWithOrder (reconcileWithOrder cart items) items = cart := by
  have hc : ¬(cart.length = 0 ∧ 0 < items.length) := by
    rintro ⟨h0, -⟩
    exact h (List.length_eq_zero.mp h0)
  have h1 : reconcileWithOrder cart items = cart := by
    unfold reconcileWithOrder
    rw [if_neg hc]
  exact ⟨h1, by rw [h1, h1]⟩

/-- Evaluation of C6 on a concrete non-empty cart and order items. -/
theorem reconcile_local_wins_witness :
    reconcileWithOrder [⟨"m1", "Tea", 5, 2, ""⟩] [⟨"o1", some ("m9"), "Pie", 3, 1, none⟩] =
      [⟨"m1", "Tea", 5, 2, ""⟩] ∧
    reconcileWithOrder
        (reconcileWithOrder [⟨"m1", "Tea", 5, 2, ""⟩] [⟨"o1", some ("m9"), "Pie", 3, 1, none⟩])
        [⟨"o1", some ("m9"), "Pie", 3, 1, none⟩] =
      [⟨"m1", "Tea", 5, 2, ""⟩] :=
  reconcile_local_wins [⟨"m1", "Tea", 5, 2, ""⟩] [⟨"o1", some ("m9"), "Pie", 3, 1, none⟩]
    (by decide)

/-- Claim C9: updateQuantity adds delta to the quantity of the line with
the given menu-item id, removes the line when the result is not positive,
and is a no-op when no such line exists. -/
theorem updateQuantity_spec (menuItemId : String) (delta : ℤ) :
    (∀ cart : Cart, (∀ c ∈ cart, c.menuItemId ≠ menuItemId) →
        updateQuantity menuItemId delta cart = cart) ∧
    (∀ (l1 l2 : Cart) (c : CartItem),
        c.menuItemId = menuItemId →
        (∀ x ∈ l1, x.menuItemId ≠ menuItemId) →
        (∀ x ∈ l2, x.menuItemId ≠ menuItemId) →
        (0 < c.quantity + delta →
          updateQuantity menuItemId delta (l1 ++ c :: l2) =
            l1 ++ { c with quantity := c.quantity + delta } :: l2) ∧
        (c.quantity + delta ≤ 0 →
          updateQuantity menuItemId delta (l1 ++ c :: l2) = l1 ++ l2)) := by
  have hskip : ∀ l : Cart, (∀ x ∈ l, x.menuItemId ≠ menuItemId) →
      (l.filterMap fun c =>
        if c.menuItemId = menuItemId then
          if 0 < c.quantity + delta then some { c with quantity := c.quantity + delta }
          else none
        else some c) = l := by
    intro l hl
    refine filterMap_skips _ l fun a ha => ?_
    simp [hl a ha]
  constructor
  · intro cart hcart
    exact hskip cart hcart
  · intro l1 l2 c hc h1 h2
    constructor
    · intro hpos
      unfold updateQuantity
      rw [List.filterMap_append, hskip l1 h1,
        List.filterMap_cons_some (by rw [if_pos hc, if_pos hpos]), hskip l2 h2]
    · intro hnonpos
      unfold updateQuantity
      rw [List.filterMap_append, hskip l1 h1,
        List.filterMap_cons_none (by rw [if_pos hc, if_neg (by omega)]), hskip l2 h2]

/-- Evaluation of C9 on concrete carts: a missing id is a no-op and a
delta driving the quantity to 0 removes the line. -/
theorem updateQuantity_spec_witness :
    updateQuantity ("m2") 1 [⟨"m1", "Tea", 5, 2, ""⟩] = [⟨"m1", "Tea", 5, 2, ""⟩] ∧
    updateQuantity ("m1") (-2) ([] ++ ⟨"m1", "Tea", 5, 2, ""⟩ :: []) = [] ++ [] := by
  constructor
  · exact (updateQuantity_spec ("m2") 1).1 [⟨"m1", "Tea", 5, 2, ""⟩] (by decide)
  · exact (((updateQuantity_spec ("m1") (-2)).2 [] [] ⟨"m1", "Tea", 5, 2, ""⟩
      (by decide) (by decide) (by decide)).2 (by decide))

/-! ### Order Lifecycle Engine lemmas -/

theorem laterOf_isSome (acc : Option OrderRow) (a : OrderRow) :
    ∃ m, laterOf acc a = some m := by
  cases acc with
  | none => exact ⟨a, rfl⟩
  | some b =>
    simp only [laterOf]
    by_cases h : b.created_at < a.created_at
    · rw [if_pos h]
      exact ⟨a, rfl⟩
    · rw [if_neg h]
      exact ⟨b, rfl⟩

theorem laterOf_cases (acc : Option OrderRow) (a b : OrderRow)
    (hb : laterOf acc a = some b) :
    (acc = some b ∨ b = a) ∧ a.created_at ≤ b.created_at ∧
      ∀ x, acc = some x → x.created_at ≤ b.created_at := by
  cases acc with
  | none =>
    simp only [laterOf] at hb
    injection hb with hb
    subst hb
    exact ⟨Or.inr rfl, le_refl _, fun x hx => Option.noConfusion hx⟩
  | some x =>
    simp only [laterOf] at hb
    by_cases hlt : x.created_at < a.created_at
    · rw [if_pos hlt] at hb
      injection hb with hb
      subst hb
      refine ⟨Or.inr rfl, le_refl _, fun y hy => ?_⟩
      injection hy with hy
      subst hy
      omega
    · rw [if_neg hlt] at hb
      injection hb with hb
      subst hb
      refine ⟨Or.inl rfl, by omega, fun y hy => ?_⟩
      injection hy with hy
      subst hy
      omega

theorem foldl_laterOf_spec (l : List OrderRow) :
    ∀ (acc : Option OrderRow) (o : OrderRow), l.foldl laterOf acc = some o →
      (acc = some o ∨ o ∈ l) ∧
      (∀ b, acc = some b → b.created_at ≤ o.created_at) ∧
      (∀ x ∈ l, x.created_at ≤ o.created_at) := by
  induction l with
  | nil =>
    intro acc o h
    simp only [List.foldl_nil] at h
    refine ⟨Or.inl h, fun b hb => ?_, fun x hx => absurd hx (List.not_mem_nil x)⟩
    rw [hb] at h
    injection h with h
    subst h
    exact le_refl _
  | cons a t ih =>
    intro acc o h
    simp only [List.foldl_cons] at h
    obtain ⟨m1, m2, m3⟩ := ih (laterOf acc a) o h
    obtain ⟨m, hm⟩ := laterOf_isSome acc a
    obtain ⟨hm1, hm2, hm3⟩ := laterOf_cases acc a m hm
    refine ⟨?_, ?_, ?_⟩
    · rcases m1 with hx | hx
      · rw [hm] at hx
        injection hx with hx
        subst hx
        rcases hm1 with hy | hy
        · exact Or.inl hy
        · exact Or.inr (by rw [hy]; exact List.mem_cons_self a t)
      · exact Or.inr (List.mem_cons_of_mem a hx)
    · intro b hb
      exact le_trans (hm3 b hb) (m2 m hm)
    · intro x hx
      rcases List.mem_cons.mp hx with rfl | hxt
      · exact le_trans hm2 (m2 m hm)
      · exact m3 x hxt

theorem latestBy_spec (l : List OrderRow) (o : OrderRow) (h : latestBy l = some o) :
    o ∈ l ∧ ∀ x ∈ l, x.created_at ≤ o.created_at := by
  obtain ⟨m1, -, m3⟩ := foldl_laterOf_spec l none o h
  rcases m1 with hm | hm
  · exact Option.noConfusion hm
  · exact ⟨hm, m3⟩

theorem latestBy_of_ne_nil (l : List OrderRow) (h : l ≠ []) :
    ∃ o, latestBy l = some o := by
  cases l with
  | nil => exact absurd rfl h
  | cons a t =>
    unfold latestBy
    rw [List.foldl_cons]
    have hstep : laterOf none a = some a := rfl
    rw [hstep]
    clear h hstep
    induction t generalizing a with
    | nil => exact ⟨a, rfl⟩
    | cons b t2 ih =>
      rw [List.foldl_cons]
      obtain ⟨m, hm⟩ := laterOf_isSome (some a) b
      rw [hm]
      exact ih m

theorem mem_activePendingOrders (orders : List OrderRow) (restaurantId tableId : String)
    (o : OrderRow) :
    o ∈ activePendingOrders orders restaurantId tableId ↔
      o ∈ orders ∧ o.restaurant_id = restaurantId ∧ o.table_id = tableId ∧
        o.status = "pending" := by
  simp [activePendingOrders, List.mem_filter, and_assoc]

theorem list_map_eq_self {α : Type} (f : α → α) (l : List α)
    (hl : ∀ x ∈ l, f x = x) : l.map f = l := by
  induction l with
  | nil => rfl
  | cons a t ih =>
    rw [List.map_cons, hl a (List.mem_cons_self a t),
      ih fun x hx => hl x (List.mem_cons_of_mem a hx)]

/-! ### Claim theorems: Order Lifecycle Engine -/

/-- Claim C7: findActiveOrder returns the most recently created pending
order of the (tenant, table) pair, returns none when no such order
exists, and never returns an order whose status has left pending. -/
theorem findActiveOrder_spec (orders : List OrderRow) (restaurantId tableId : String) :
    (∀ o, findActiveOrder orders restaurantId tableId = some o →
        o ∈ orders ∧ o.restaurant_id = restaurantId ∧ o.table_id = tableId ∧
        o.status = "pending" ∧
        ∀ x ∈ activePendingOrders orders restaurantId tableId,
          x.created_at ≤ o.created_at) ∧
    (activePendingOrders orders restaurantId tableId = [] ↔
      findActiveOrder orders restaurantId tableId = none) ∧
    (∀ orderId, (∀ o ∈ orders, o.id = orderId → o.status ≠ "pending") →
        ∀ o, findActiveOrder orders restaurantId tableId = some o → o.id ≠ orderId) := by
  have hmain : ∀ o, findActiveOrder orders restaurantId tableId = some o →
      o ∈ orders ∧ o.restaurant_id = restaurantId ∧ o.table_id = tableId ∧
      o.status = "pending" ∧
      ∀ x ∈ activePendingOrders orders restaurantId tableId,
        x.created_at ≤ o.created_at := by
    intro o ho
    obtain ⟨hmem, hmax⟩ := latestBy_spec _ o ho
    obtain ⟨h1, h2, h3, h4⟩ := (mem_activePendingOrders orders restaurantId tableId o).mp hmem
    exact ⟨h1, h2, h3, h4, hmax⟩
  refine ⟨hmain, ⟨?_, ?_⟩, ?_⟩
  · intro h
    unfold findActiveOrder latestBy
    rw [h]
    rfl
  · intro h
    by_contra hne
    obtain ⟨o, ho⟩ := latestBy_of_ne_nil _ hne
    unfold findActiveOrder at h
    rw [ho] at h
    exact Option.noConfusion h
  · intro orderId hall o ho hid
    obtain ⟨h1, -, -, h4, -⟩ := hmain o ho
    exact hall o h1 hid h4

/-- Evaluation of C7: a served order yields no active order, and the
returned pending order is never the one whose status left pending. -/
theorem findActiveOrder_spec_witness :
    (activePendingOrders [⟨"o1", "r1", "t1", "served", 5, 1, 1⟩] ("r1") ("t1") = [] ↔
      findActiveOrder [⟨"o1", "r1", "t1", "served", 5, 1, 1⟩] ("r1") ("t1") = none) ∧
    (⟨"o2", "r1", "t1", "pending", 5, 2, 2⟩ : OrderRow).id ≠ "o1" := by
  constructor
  · exact (findActiveOrder_spec [⟨"o1", "r1", "t1", "served", 5, 1, 1⟩] ("r1") ("t1")).2.1
  · exact (findActiveOrder_spec
      [⟨"o1", "r1", "t1", "served", 5, 1, 1⟩, ⟨"o2", "r1", "t1", "pending", 5, 2, 2⟩]
      ("r1") ("t1")).2.2 ("o1") (by decide) ⟨"o2", "r1", "t1", "pending", 5, 2, 2⟩ (by decide)

/-- Claim C1: evaluation of both creation paths at the failing input,
a line-item insertion that fails right after the Order row was created.
The comment at usePWA.ts 445 announces the compensating cleanup, but
the orphaned zero-item pending order survives on both paths: the admin
path issues no delete at all, and the PWA path delete is silently
filtered by row-level security because no DELETE policy on orders
admits the unauthenticated caller. The store does not equal its
pre-call state on either path. -/
theorem place_order_orphan_on_items_failure :
    handlePlaceOrder true [⟨"m1", "Tea", 5, 1, ""⟩] none ("r1") ("t1") ("o1") 0
        false false true ⟨[], [], [], [], [], []⟩ =
      (.transportError msgAddItemsFailed,
       ⟨[pwaOrderRow [⟨"m1", "Tea", 5, 1, ""⟩] ("r1") ("t1") ("o1") 0],
        [], [], [], [], []⟩,
       [⟨"m1", "Tea", 5, 1, ""⟩]) ∧
    (⟨[pwaOrderRow [⟨"m1", "Tea", 5, 1, ""⟩] ("r1") ("t1") ("o1") 0],
      [], [], [], [], []⟩ : Store) ≠ ⟨[], [], [], [], [], []⟩ ∧
    handleCreateOrder [⟨⟨"m1", "Tea", none, 5, none, none⟩, 1, ""⟩] ("t1") ("r1") ("o1") 0
        false true ⟨[], [], [], [], [], []⟩ =
      (.transportError msgCreateOrderFailed,
       ⟨[adminOrderRow [⟨⟨"m1", "Tea", none, 5, none, none⟩, 1, ""⟩] ("r1") ("t1") ("o1") 0],
        [], [], [], [], []⟩) ∧
    (handleCreateOrder [⟨⟨"m1", "Tea", none, 5, none, none⟩, 1, ""⟩] ("t1") ("r1") ("o1") 0
        false true ⟨[], [], [], [], [], []⟩).2.order_items = [] := by
  refine ⟨rfl, ?_, rfl, rfl⟩
  intro h
  exact List.noConfusion (congrArg Store.orders h)

/-- Claim C3: a successful placeOrder on a non-empty cart creates exactly
one pending Order row whose total is the sum of price times quantity over
the cart lines, and exactly one OrderLineItem row per cart line carrying
the name and price snapshot of submission time; menu edits touch only
menu_items and leave orders and line items unchanged. The admin creation
path produces the same shape. -/
theorem place_order_success_snapshot (cart : Cart)
    (restaurantId tableId newOrderId : String) (now : ℕ) (s : Store)
    (hne : cart ≠ []) (hvalid : ∀ c ∈ cart, c.menuItemId ≠ "") :
    handlePlaceOrder true cart none restaurantId tableId newOrderId now false false false s =
      (.success,
       { s with
           orders := s.orders ++ [pwaOrderRow cart restaurantId tableId newOrderId now],
           order_items := s.order_items ++ cart.map (snapshotItem newOrderId) },
       cart) ∧
    (pwaOrderRow cart restaurantId tableId newOrderId now).status = "pending" ∧
    (pwaOrderRow cart restaurantId tableId newOrderId now).total_amount =
      ((cart.map fun c => c.price * (c.quantity : ℚ)).sum) ∧
    (∀ c ∈ cart, (snapshotItem newOrderId c).name_at_order = c.name ∧
        (snapshotItem newOrderId c).price_at_order = c.price ∧
        (snapshotItem newOrderId c).quantity = c.quantity) ∧
    (∀ (f : List MenuItemRow → List MenuItemRow) (s2 : Store),
        (editMenuItems f s2).orders = s2.orders ∧
        (editMenuItems f s2).order_items = s2.order_items) ∧
    (∀ (acart : List AdminCartItem) (tid aid : String),
        acart ≠ [] → tid ≠ "" →
        handleCreateOrder acart tid restaurantId aid now false false s =
          (.success,
           { s with
               orders := s.orders ++ [adminOrderRow acart restaurantId tid aid now],
               order_items := s.order_items ++ acart.map (adminSnapshotItem aid) })) := by
  have hguard : ¬(true = false ∨ cart = []) := by simp [hne]
  have hfilter : ¬(0 < (cart.filter fun item => item.menuItemId = "").length) := by
    simp only [not_lt, Nat.le_zero, List.length_eq_zero]
    rw [List.filter_eq_nil_iff]
    intro a ha
    simp [hvalid a ha]
  have hOIF : ¬((false : Bool) = true) := by simp
  refine ⟨?_, rfl, getCartTotal_eq_sum cart, fun c _ => ⟨rfl, rfl, rfl⟩,
    fun f s2 => ⟨rfl, rfl⟩, ?_⟩
  · simp only [handlePlaceOrder, if_neg hguard, if_neg hfilter]
    simp only [createOrderPWA, if_neg hOIF]
  · intro acart tid aid hane htid
    simp only [handleCreateOrder, if_neg hane, if_neg htid, if_neg hOIF]

/-- Evaluation of C3 on the concrete 12.50 cart of the spec: two 5.00
burgers and one 2.50 fries produce one pending order and two snapshot
line items. -/
theorem place_order_success_snapshot_witness :
    handlePlaceOrder true [⟨"m1", "Burger", 5, 2, ""⟩, ⟨"m2", "Fries", 5/2, 1, ""⟩] none
        ("r1") ("t1") ("o1") 0 false false false ⟨[], [], [], [], [], []⟩ =
      (.success,
       ⟨[pwaOrderRow [⟨"m1", "Burger", 5, 2, ""⟩, ⟨"m2", "Fries", 5/2, 1, ""⟩]
           ("r1") ("t1") ("o1") 0],
        [snapshotItem ("o1") ⟨"m1", "Burger", 5, 2, ""⟩,
         snapshotItem ("o1") ⟨"m2", "Fries", 5/2, 1, ""⟩],
        [], [], [], []⟩,
       [⟨"m1", "Burger", 5, 2, ""⟩, ⟨"m2", "Fries", 5/2, 1, ""⟩]) :=
  (place_order_success_snapshot [⟨"m1", "Burger", 5, 2, ""⟩, ⟨"m2", "Fries", 5/2, 1, ""⟩]
    ("r1") ("t1") ("o1") 0 ⟨[], [], [], [], [], []⟩ (by decide) (by decide)).1

/-- Claim C4 counterexample: with an active order in status accepted and
a non-empty cart, the customer submission does not fail with
InvalidStateError: it reports success and creates a second fresh pending
order, leaving the accepted order in place. -/
theorem place_order_nonpending_success_counterexample :
    handlePlaceOrder true [⟨"m2", "Coffee", 3, 2, ""⟩]
        (some ⟨"o1", "r1", "t1", "accepted", 5, 0, 0⟩) ("r1") ("t1") ("o2") 9
        false false false
        ⟨[⟨"o1", "r1", "t1", "accepted", 5, 0, 0⟩],
         [⟨"o1", some ("m1"), "Tea", 5, 1, none⟩], [], [], [], []⟩ =
      (.success,
       ⟨[⟨"o1", "r1", "t1", "accepted", 5, 0, 0⟩,
         pwaOrderRow [⟨"m2", "Coffee", 3, 2, ""⟩] ("r1") ("t1") ("o2") 9],
        [⟨"o1", some ("m1"), "Tea", 5, 1, none⟩,
         snapshotItem ("o2") ⟨"m2", "Coffee", 3, 2, ""⟩],
        [], [], [], []⟩,
       [⟨"m2", "Coffee", 3, 2, ""⟩]) := by
  rfl

/-- Claim C4 (amended): a customer submission while the active order is
not pending succeeds without touching that order: all of its line items
stay exactly as stored and a fresh pending order is created instead; at
the store level the customer update policy only admits rows whose status
is pending, so a direct customer update of a non-pending order changes
nothing. -/
theorem place_order_nonpending_preserves_order (cart : Cart) (o : OrderRow)
    (restaurantId tableId newOrderId : String) (now : ℕ) (s : Store)
    (hne : cart ≠ []) (hvalid : ∀ c ∈ cart, c.menuItemId ≠ "")
    (hstatus : o.status ≠ "pending") (ho : o ∈ s.orders)
    (hfresh : ∀ x ∈ s.orders, x.id ≠ newOrderId) :
    handlePlaceOrder true cart (some o) restaurantId tableId newOrderId now
        false false false s =
      (.success,
       { s with
           orders := s.orders ++ [pwaOrderRow cart restaurantId tableId newOrderId now],
           order_items := s.order_items ++ cart.map (snapshotItem newOrderId) },
       cart) ∧
    o ∈ s.orders ++ [pwaOrderRow cart restaurantId tableId newOrderId now] ∧
    ((s.order_items ++ cart.map (snapshotItem newOrderId)).filter
        fun it => it.order_id = o.id) =
      (s.order_items.filter fun it => it.order_id = o.id) ∧
    (∀ (s2 : Store) (total : ℚ) (now2 : ℕ),
        (∀ x ∈ s2.orders, x.id = o.id → x.status ≠ "pending") →
        customerUpdateOrderTotal o.id total now2 s2 = s2) := by
  have hguard : ¬(true = false ∨ cart = []) := by simp [hne]
  have hfilter : ¬(0 < (cart.filter fun item => item.menuItemId = "").length) := by
    simp only [not_lt, Nat.le_zero, List.length_eq_zero]
    rw [List.filter_eq_nil_iff]
    intro a ha
    simp [hvalid a ha]
  have hOIF : ¬((false : Bool) = true) := by simp
  refine ⟨?_, List.mem_append_left _ ho, ?_, ?_⟩
  · simp only [handlePlaceOrder, if_neg hguard, if_neg hfilter, if_neg hstatus]
    simp only [createOrderPWA, if_neg hOIF]
  · rw [List.filter_append]
    have h2 : ((cart.map (snapshotItem newOrderId)).filter
        fun it => it.order_id = o.id) = [] := by
      rw [List.filter_eq_nil_iff]
      intro it hit
      obtain ⟨c, -, rfl⟩ := List.mem_map.mp hit
      have : o.id ≠ newOrderId := hfresh o ho
      simp [snapshotItem]
      exact fun heq => this heq.symm
    rw [h2, List.append_nil]
  · intro s2 total now2 hall
    obtain ⟨os, its, mis, tbs, rus, pus⟩ := s2
    simp only [customerUpdateOrderTotal]
    have hmap : os.map (fun x =>
        if x.id = o.id ∧ x.status = "pending"
        then { x with total_amount := total, updated_at := now2 } else x) = os :=
      list_map_eq_self _ os fun x hx =>
        if_neg fun hcond => hall x hx hcond.1 hcond.2
    rw [hmap]

/-- Evaluation of the amended C4: a concrete accepted order keeps its
row and line items while the submission creates a fresh pending order,
and the policy-filtered customer update of the accepted order is the
identity on the store. -/
theorem place_order_nonpending_preserves_order_witness :
    handlePlaceOrder true [⟨"m2", "Coffee", 3, 1, ""⟩]
        (some ⟨"o1", "r1", "t1", "accepted", 5, 0, 0⟩) ("r1") ("t1") ("o2") 9
        false false false
        ⟨[⟨"o1", "r1", "t1", "accepted", 5, 0, 0⟩],
         [⟨"o1", some ("m1"), "Tea", 5, 1, none⟩], [], [], [], []⟩ =
      (.success,
       ⟨[⟨"o1", "r1", "t1", "accepted", 5, 0, 0⟩,
         pwaOrderRow [⟨"m2", "Coffee", 3, 1, ""⟩] ("r1") ("t1") ("o2") 9],
        [⟨"o1", some ("m1"), "Tea", 5, 1, none⟩,
         snapshotItem ("o2") ⟨"m2", "Coffee", 3, 1, ""⟩],
        [], [], [], []⟩,
       [⟨"m2", "Coffee", 3, 1, ""⟩]) ∧
    customerUpdateOrderTotal ("o1") 42 3
        ⟨[⟨"o1", "r1", "t1", "accepted", 5, 0, 0⟩],
         [⟨"o1", some ("m1"), "Tea", 5, 1, none⟩], [], [], [], []⟩ =
      ⟨[⟨"o1", "r1", "t1", "accepted", 5, 0, 0⟩],
       [⟨"o1", some ("m1"), "Tea", 5, 1, none⟩], [], [], [], []⟩ := by
  have h := place_order_nonpending_preserves_order [⟨"m2", "Coffee", 3, 1, ""⟩]
    ⟨"o1", "r1", "t1", "accepted", 5, 0, 0⟩ ("r1") ("t1") ("o2") 9
    ⟨[⟨"o1", "r1", "t1", "accepted", 5, 0, 0⟩],
     [⟨"o1", some ("m1"), "Tea", 5, 1, none⟩], [], [], [], []⟩
    (by decide) (by decide) (by decide) (by decide) (by decide)
  exact ⟨h.1, h.2.2.2 _ 42 3 (by decide)⟩

/-- Claim C5: placeOrder with an empty cart, or without a table resolving
to the tenant, fails with the validation message and leaves the store
untouched; the admin creation path likewise rejects an empty cart or a
missing table selection without touching the store. -/
theorem place_order_validation (cart : Cart) (activeOrder : Option OrderRow)
    (tables : List TableRow) (restaurantId tableId newOrderId : String) (now : ℕ)
    (f1 f2 f3 : Bool) (s : Store)
    (h : cart = [] ∨ resolveTable tables restaurantId tableId = none) :
    handlePlaceOrder (pwaCanOrder restaurantId tableId (resolveTable tables restaurantId tableId))
        cart activeOrder restaurantId tableId newOrderId now f1 f2 f3 s =
      (.validationError msgCannotPlace, s, cart) ∧
    (∀ (acart : List AdminCartItem) (tid aid : String) (now2 : ℕ) (g1 g2 : Bool) (s2 : Store),
        acart = [] →
        handleCreateOrder acart tid restaurantId aid now2 g1 g2 s2 =
          (.validationError msgAddItems, s2)) ∧
    (∀ (acart : List AdminCartItem) (aid : String) (now2 : ℕ) (g1 g2 : Bool) (s2 : Store),
        acart ≠ [] →
        handleCreateOrder acart ("") restaurantId aid now2 g1 g2 s2 =
          (.validationError msgSelectTable, s2)) := by
  refine ⟨?_, ?_, ?_⟩
  · have hcond : pwaCanOrder restaurantId tableId
        (resolveTable tables restaurantId tableId) = false ∨ cart = [] := by
      rcases h with hc | ht
      · exact Or.inr hc
      · exact Or.inl (by simp [pwaCanOrder, ht])
    simp only [handlePlaceOrder, if_pos hcond]
  · intro acart tid aid now2 g1 g2 s2 hc
    simp only [handleCreateOrder, if_pos hc]
  · intro acart aid now2 g1 g2 s2 hane
    simp only [handleCreateOrder, if_neg hane]
    rw [if_pos trivial]

/-- Evaluation of C5: an empty cart is rejected with the validation
message on both paths, leaving the empty store as it was. -/
theorem place_order_validation_witness :
    handlePlaceOrder (pwaCanOrder ("r1") ("t1") (resolveTable [] ("r1") ("t1"))) [] none
        ("r1") ("t1") ("o1") 0 false false false ⟨[], [], [], [], [], []⟩ =
      (.validationError msgCannotPlace, ⟨[], [], [], [], [], []⟩, []) ∧
    handleCreateOrder [] ("t1") ("r1") ("o1") 0 false false ⟨[], [], [], [], [], []⟩ =
      (.validationError msgAddItems, ⟨[], [], [], [], [], []⟩) := by
  have h := place_order_validation [] none [] ("r1") ("t1") ("o1") 0 false false false
    ⟨[], [], [], [], [], []⟩ (Or.inl rfl)
  exact ⟨h.1, h.2.1 [] ("t1") ("o1") 0 false false ⟨[], [], [], [], [], []⟩ rfl⟩

/-- Claim C10: a non-empty customer cart containing a line with an empty
menu-item id is rejected by the validation guard before any store call:
the store and the cart are returned unchanged. -/
theorem place_order_invalid_item_guard (cart : Cart) (activeOrder : Option OrderRow)
    (restaurantId tableId newOrderId : String) (now : ℕ) (f1 f2 f3 : Bool) (s : Store)
    (hne : cart ≠ []) (c : CartItem) (hc : c ∈ cart) (hbad : c.menuItemId = "") :
    handlePlaceOrder true cart activeOrder restaurantId tableId newOrderId now f1 f2 f3 s =
      (.validationError msgInvalidItems, s, cart) := by
  have hguard : ¬(true = false ∨ cart = []) := by simp [hne]
  have hfilter : 0 < (cart.filter fun item => item.menuItemId = "").length := by
    have hmem : c ∈ cart.filter fun item => item.menuItemId = "" :=
      List.mem_filter.mpr ⟨hc, by simp [hbad]⟩
    exact List.length_pos.mpr (List.ne_nil_of_mem hmem)
  simp only [handlePlaceOrder, if_neg hguard, if_pos hfilter]

/-- Evaluation of C10 on a concrete cart with an id-less line. -/
theorem place_order_invalid_item_guard_witness :
    handlePlaceOrder true [⟨"", "Ghost", 1, 1, ""⟩] none ("r1") ("t1") ("o1") 0
        false false false ⟨[], [], [], [], [], []⟩ =
      (.validationError msgInvalidItems, ⟨[], [], [], [], [], []⟩, [⟨"", "Ghost", 1, 1, ""⟩]) :=
  place_order_invalid_item_guard [⟨"", "Ghost", 1, 1, ""⟩] none ("r1") ("t1") ("o1") 0
    false false false ⟨[], [], [], [], [], []⟩ (by decide) ⟨"", "Ghost", 1, 1, ""⟩
    (by decide) rfl

/-- Claim C8 counterexample: caller eve has no tenant access
(restaurant_users and platform_users are empty) and the order is in
status accepted, yet updateOrderStatus does not fail with an
AuthorizationError: every policy USING clause rejects the stored row, so
the write silently matches zero rows, the order is unchanged, and the
client still reports success. -/
theorem update_status_unauthorized_counterexample :
    updateOrderStatus ("eve") ("o1") ("served") 3 false
        ⟨[⟨"o1", "r1", "t1", "accepted", 5, 0, 0⟩], [], [], [], [], []⟩ =
      (.success, ⟨[⟨"o1", "r1", "t1", "accepted", 5, 0, 0⟩], [], [], [], [], []⟩) := by
  rfl

/-- Claim C8 (amended): updateOrderStatus never raises an authorization
error of its own. A caller with tenant access rewrites the targeted
order to any new status whatever its current status, with the trigger
stamping the update time. When the caller lacks access and the order is
not pending, the policies silently filter the write: the store is
returned unchanged while the call still reports success. When the
caller lacks access, the order is still pending and the new status is
not pending, the new row fails every policy WITH CHECK clause: the
statement is rejected, surfacing as the generic update failure, and the
store is unchanged. -/
theorem update_status_amended :
    (∀ (caller orderId newStatus : String) (now : ℕ) (s : Store)
        (l1 l2 : List OrderRow) (o : OrderRow),
        s.orders = l1 ++ o :: l2 → o.id = orderId →
        has_restaurant_access s caller o.restaurant_id = true →
        (∀ x ∈ l1, x.id ≠ orderId) → (∀ x ∈ l2, x.id ≠ orderId) →
        updateOrderStatus caller orderId newStatus now false s =
          (.success,
           { s with orders :=
               l1 ++ { o with status := newStatus, updated_at := now } :: l2 })) ∧
    (∀ (caller orderId newStatus : String) (now : ℕ) (s : Store),
        (∀ x ∈ s.orders, x.id = orderId →
            has_restaurant_access s caller x.restaurant_id = false ∧
              x.status ≠ "pending") →
        updateOrderStatus caller orderId newStatus now false s = (.success, s)) ∧
    (∀ (caller orderId newStatus : String) (now : ℕ) (s : Store) (o : OrderRow),
        o ∈ s.orders → o.id = orderId → o.status = "pending" →
        has_restaurant_access s caller o.restaurant_id = false →
        newStatus ≠ "pending" →
        updateOrderStatus caller orderId newStatus now false s =
          (.transportError msgUpdateOrderFailed, s)) := by
  have hOIF : ¬((false : Bool) = true) := by simp
  refine ⟨?_, ?_, ?_⟩
  · intro caller orderId newStatus now s l1 l2 o horders hid hacc h1 h2
    obtain ⟨os, its, mis, tbs, rus, pus⟩ := s
    simp only at horders
    subst horders
    simp only [updateOrderStatus, if_neg hOIF]
    split_ifs with hany
    · exfalso
      obtain ⟨x, hxmem, hpx⟩ := List.any_eq_true.mp hany
      simp only [decide_eq_true_eq] at hpx
      obtain ⟨⟨hxid, -⟩, hchk⟩ := hpx
      rcases List.mem_append.mp hxmem with hx1 | hx2
      · exact h1 x hx1 hxid
      · rcases List.mem_cons.mp hx2 with rfl | hx3
        · exact hchk (Or.inl hacc)
        · exact h2 x hx3 hxid
    · rw [List.map_append, List.map_cons, if_pos ⟨hid, Or.inl hacc⟩,
        list_map_eq_self _ l1 (fun x hx => if_neg fun hcond => h1 x hx hcond.1),
        list_map_eq_self _ l2 (fun x hx => if_neg fun hcond => h2 x hx hcond.1)]
  · intro caller orderId newStatus now s hall
    obtain ⟨os, its, mis, tbs, rus, pus⟩ := s
    simp only [updateOrderStatus, if_neg hOIF]
    split_ifs with hany
    · exfalso
      obtain ⟨x, hxmem, hpx⟩ := List.any_eq_true.mp hany
      simp only [decide_eq_true_eq] at hpx
      obtain ⟨⟨hxid, hus⟩, -⟩ := hpx
      obtain ⟨haccf, hpend⟩ := hall x hxmem hxid
      rcases hus with ha | hp
      · rw [haccf] at ha
        exact Bool.noConfusion ha
      · exact hpend hp
    · have hmap : os.map (fun x =>
          if x.id = orderId ∧
              (has_restaurant_access ⟨os, its, mis, tbs, rus, pus⟩ caller
                  x.restaurant_id = true ∨ x.status = "pending")
          then { x with status := newStatus, updated_at := now } else x) = os := by
        refine list_map_eq_self _ os fun x hx => if_neg fun hcond => ?_
        obtain ⟨hxid, hus⟩ := hcond
        obtain ⟨haccf, hpend⟩ := hall x hx hxid
        rcases hus with ha | hp
        · rw [haccf] at ha
          exact Bool.noConfusion ha
        · exact hpend hp
      rw [hmap]
  · intro caller orderId newStatus now s o ho hid hpend haccf hnew
    simp only [updateOrderStatus, if_neg hOIF]
    split_ifs with hany
    · rfl
    · exfalso
      refine hany (List.any_eq_true.mpr ⟨o, ho, ?_⟩)
      simp only [decide_eq_true_eq]
      refine ⟨⟨hid, Or.inr hpend⟩, ?_⟩
      rintro (ha | hp)
      · rw [haccf] at ha
        exact Bool.noConfusion ha
      · exact hnew hp

/-- Evaluation of the amended C8: an admin linked to the tenant moves an
accepted order to served; a caller with no access leaves an accepted
order untouched while the call reports success; and the same access-less
caller moving a pending order to cancelled is rejected by the policy
check with the order left pending. -/
theorem update_status_amended_witness :
    updateOrderStatus ("alice") ("o1") ("served") 3 false
        ⟨[⟨"o1", "r1", "t1", "accepted", 5, 0, 0⟩], [], [], [], [⟨"alice", "r1"⟩], []⟩ =
      (.success,
       ⟨[⟨"o1", "r1", "t1", "served", 5, 0, 3⟩], [], [], [], [⟨"alice", "r1"⟩], []⟩) ∧
    updateOrderStatus ("eve") ("o2") ("served") 3 false
        ⟨[⟨"o2", "r1", "t1", "accepted", 5, 0, 0⟩], [], [], [], [], []⟩ =
      (.success, ⟨[⟨"o2", "r1", "t1", "accepted", 5, 0, 0⟩], [], [], [], [], []⟩) ∧
    updateOrderStatus ("eve") ("o3") ("cancelled") 7 false
        ⟨[⟨"o3", "r1", "t1", "pending", 5, 0, 0⟩], [], [], [], [], []⟩ =
      (.transportError msgUpdateOrderFailed,
       ⟨[⟨"o3", "r1", "t1", "pending", 5, 0, 0⟩], [], [], [], [], []⟩) := by
  refine ⟨?_, ?_, ?_⟩
  · exact update_status_amended.1 ("alice") ("o1") ("served") 3
      ⟨[⟨"o1", "r1", "t1", "accepted", 5, 0, 0⟩], [], [], [], [⟨"alice", "r1"⟩], []⟩
      [] [] ⟨"o1", "r1", "t1", "accepted", 5, 0, 0⟩ rfl rfl (by decide)
      (by decide) (by decide)
  · exact update_status_amended.2.1 ("eve") ("o2") ("served") 3
      ⟨[⟨"o2", "r1", "t1", "accepted", 5, 0, 0⟩], [], [], [], [], []⟩ (by decide)
  · exact update_status_amended.2.2 ("eve") ("o3") ("cancelled") 7
      ⟨[⟨"o3", "r1", "t1", "pending", 5, 0, 0⟩], [], [], [], [], []⟩
      ⟨"o3", "r1", "t1", "pending", 5, 0, 0⟩ (by decide) rfl rfl (by decide) (by decide)

end QuickOrderHub
